import Mathlib

/-!
Shallow embedding of the project-manager repository: the Express + SQLite
backend (the server file) and the per-snapshot computations of the React
frontend (`public/app.js`), together with theorems settling the frozen
claims about them. The SQLite engine itself is an external collaborator:
it is modelled as faithful storage of the values the handlers bind into
their statements. The one database failure the handlers can actually
provoke — the UPDATE binding SQL NULL into a NOT NULL column — is
modelled explicitly; the remaining 500 branches (connection failures
and the like) are unreachable here.
-/

namespace ProjectManager

/-- Scalar JSON/JavaScript value as it appears in a parsed request-body
field or in a stored row. `undef` models a field absent from the body
(JavaScript `undefined`), `null` the JSON literal `null`. Numbers are
modelled as integers; no claim depends on fractional values. -/
inductive JVal where
  | undef
  | null
  | str (s : String)
  | num (n : Int)
  | bool (b : Bool)
deriving DecidableEq, Repr

/-- JavaScript truthiness of a scalar value, as used by `!x`, `x || d` and
`x ? a : b` in the handlers: `undefined`, `null`, the empty string and 0
are falsy, everything else truthy. -/
def JVal.truthy : JVal → Bool
  | .undef => false
  | .null => false
  | .str s => s != ""
  | .num n => n != 0
  | .bool b => b

/-- JavaScript `a || d` on scalar values: `a` when truthy, otherwise `d`. -/
def jsOr (a d : JVal) : JVal := if a.truthy then a else d

/-- JavaScript `v ? 1 : 0`, the coercion both the create and the update
handler apply to `finished` before persisting. -/
def jsCond (v : JVal) : JVal := if v.truthy then .num 1 else .num 0

/-- True exactly on string values. -/
def JVal.isStr : JVal → Bool
  | .str _ => true
  | _ => false

/-- One row of the `projects` table. SQLite assigns `id` (INTEGER PRIMARY
KEY AUTOINCREMENT); the remaining columns hold the values the handlers
bind into the INSERT/UPDATE statements. -/
structure Row where
  id : Nat
  title : JVal
  description : JVal
  deadline : JVal
  person : JVal
  client : JVal
  contact : JVal
  achievements : JVal
  price : JVal
  finished : JVal
deriving DecidableEq, Repr

/-- The nine fields destructured from `req.body` by the create and update
handlers; a field missing from the JSON body destructures to `undef`. -/
structure ReqBody where
  title : JVal
  description : JVal
  deadline : JVal
  person : JVal
  client : JVal
  contact : JVal
  achievements : JVal
  price : JVal
  finished : JVal
deriving DecidableEq, Repr

/-- Response sent by a handler. `okList`/`okRow`/`okSuccess` are 200 JSON
bodies and `created` the 201 body; `okNone` is `res.json(row)` with
`row === undefined` (status 200, empty body), which the update handler
sends when the SELECT after its UPDATE finds no row; `badRequest` is the
status-400 `{ error: msg }`; `serverError` is the status-500
`{ error: msg }` of the database-failure branches — the update handler
sends it when its UPDATE violates a NOT NULL constraint. -/
inductive Response where
  | okList (rows : List Row)
  | okRow (row : Row)
  | okNone
  | okSuccess
  | created (row : Row)
  | badRequest (msg : String)
  | serverError (msg : String)
deriving DecidableEq, Repr

/-- True exactly on the error responses (HTTP status 400 or 500). -/
def Response.isError : Response → Bool
  | .badRequest _ => true
  | .serverError _ => true
  | _ => false

/-- The `projects` table: its rows in insertion order, plus the next id the
AUTOINCREMENT sequence will assign. The counter only grows, so ids of
deleted rows are never reused. -/
structure Store where
  rows : List Row
  nextId : Nat
deriving DecidableEq, Repr

/-- The freshly created table; AUTOINCREMENT assigns 1 first. -/
def emptyStore : Store := ⟨[], 1⟩

/-- GET `/api/projects`: `SELECT * FROM projects` returns every row. -/
def getProjects (s : Store) : Response × Store := (.okList s.rows, s)

/-- POST `/api/projects`: rejects the request with status 400 when
`!title || !deadline || !person`; otherwise inserts one row with the
defaults `description || ''`, `client || ''`, `contact || ''`,
`achievements || 0`, `price || 0` and `finished ? 1 : 0` applied, and
returns, with status 201, the row fetched back by its new id. -/
def createProject (s : Store) (b : ReqBody) : Response × Store :=
  if !b.title.truthy || !b.deadline.truthy || !b.person.truthy then
    (.badRequest "Title, deadline and person are required", s)
  else
    let row : Row :=
      { id := s.nextId
        title := b.title
        description := jsOr b.description (.str "")
        deadline := b.deadline
        person := b.person
        client := jsOr b.client (.str "")
        contact := jsOr b.contact (.str "")
        achievements := jsOr b.achievements (.num 0)
        price := jsOr b.price (.num 0)
        finished := jsCond b.finished }
    (.created row, ⟨s.rows ++ [row], s.nextId + 1⟩)

/-- How node-sqlite3 binds a JavaScript scalar as a statement parameter:
`undefined` and `null` bind SQL NULL, booleans bind the integers 1/0,
strings and numbers bind as themselves. SQLite's column-affinity
conversions for scalars of the wrong shape (e.g. a number stored into
a TEXT column) are outside the model; the update theorem below
quantifies only over values on which affinity is the identity. -/
def bindVal : JVal → JVal
  | .undef => .null
  | .null => .null
  | .bool b => .num (if b then 1 else 0)
  | v => v

/-- Effect of the UPDATE statement on a single matching row when no
constraint fails: every column except `id` is overwritten with the
bound request-body value (absent/null fields become SQL NULL, which
the SELECT-back returns as `null`), with `finished ? 1 : 0` applied
and no validation. -/
def replaceFields (b : ReqBody) (r : Row) : Row :=
  { id := r.id
    title := bindVal b.title
    description := bindVal b.description
    deadline := bindVal b.deadline
    person := bindVal b.person
    client := bindVal b.client
    contact := bindVal b.contact
    achievements := bindVal b.achievements
    price := bindVal b.price
    finished := jsCond b.finished }

/-- PUT `/api/projects/:id`: runs the UPDATE. When at least one row
matches and the body binds SQL NULL into one of the NOT NULL columns
(`title`, `deadline`, `person`, schema lines 26-37), SQLite aborts the
statement, nothing is written, and the handler answers 500 "Database
update error"; a zero-row UPDATE never evaluates the constraint.
Otherwise every row whose id matches gets the new field values and the
handler runs `SELECT * FROM projects WHERE id = ?`: if a row comes
back it is returned with status 200, otherwise `res.json(row)` sends
an empty 200 body. -/
def updateProject (s : Store) (pid : Nat) (b : ReqBody) : Response × Store :=
  if (s.rows.any fun r => r.id == pid) &&
      (bindVal b.title == .null || bindVal b.deadline == .null ||
        bindVal b.person == .null) then
    (.serverError "Database update error", s)
  else
    let rows := s.rows.map fun r => if r.id = pid then replaceFields b r else r
    match rows.find? (fun r => r.id == pid) with
    | some row => (.okRow row, ⟨rows, s.nextId⟩)
    | none => (.okNone, ⟨rows, s.nextId⟩)

/-- DELETE `/api/projects/:id`: `DELETE FROM projects WHERE id = ?`, then
`{ success: true }` whether or not any row matched. -/
def deleteProject (s : Store) (pid : Nat) : Response × Store :=
  (.okSuccess, ⟨s.rows.filter fun r => r.id != pid, s.nextId⟩)

/-- One write request against the API. -/
inductive Op where
  | create (b : ReqBody)
  | update (pid : Nat) (b : ReqBody)
  | delete (pid : Nat)
deriving Repr

/-- Store reached after the handler for one request has run. -/
def applyOp (s : Store) : Op → Store
  | .create b => (createProject s b).2
  | .update pid b => (updateProject s pid b).2
  | .delete pid => (deleteProject s pid).2

/-- Field absent from the request body, or present as the empty string. -/
def absentOrEmpty (v : JVal) : Prop := v = .undef ∨ v = .str ""

/-- Value a request body may put into a nullable TEXT column with binding
and affinity acting as identity-or-NULL: a string, or absent/null
(bound as SQL NULL). -/
def textBindable (v : JVal) : Prop :=
  (∃ s, v = JVal.str s) ∨ v = .undef ∨ v = .null

/-- Value a request body may put into a nullable REAL column likewise: a
number, or absent/null. -/
def numBindable (v : JVal) : Prop :=
  (∃ n, v = JVal.num n) ∨ v = .undef ∨ v = .null

/-- Every row id is below the AUTOINCREMENT counter, so the id the next
insert assigns is unused. Holds of the empty table and is preserved by
every handler. -/
def storeWF (s : Store) : Prop := ∀ r ∈ s.rows, r.id < s.nextId

/-- Every stored `finished` value is the integer 1 or 0. -/
def finishedOK (s : Store) : Prop :=
  ∀ r ∈ s.rows, r.finished = .num 1 ∨ r.finished = .num 0

/-- Fully populated request body used as a concrete test input. -/
def sampleBody : ReqBody :=
  ⟨.str "Website", .str "", .str "2024-12-01", .str "Alice",
    .str "", .str "", .num 0, .num 0, .num 0⟩

/-- C1: a Create request whose `title`, `deadline` or `person` is absent or
empty is rejected with the status-400 validation message, no row is
persisted, and a subsequent List returns exactly the rows it returned
before the request. -/
theorem create_missing_required_rejected (s : Store) (b : ReqBody)
    (h : absentOrEmpty b.title ∨ absentOrEmpty b.deadline ∨ absentOrEmpty b.person) :
    createProject s b =
      (.badRequest "Title, deadline and person are required", s) ∧
    (getProjects (createProject s b).2).1 = (getProjects s).1 := by
  have hfal : (!b.title.truthy || !b.deadline.truthy || !b.person.truthy) = true := by
    rcases h with h | h | h <;> rcases h with h | h <;> simp [h, JVal.truthy]
  refine ⟨?_, ?_⟩ <;> simp [createProject, hfal, getProjects]

/-- Witness for C1: creating with an empty title on the empty store is
rejected and leaves the store empty. -/
theorem create_missing_required_rejected_witness :
    createProject emptyStore
        ⟨.str "", .undef, .str "2024-12-01", .str "Alice",
          .undef, .undef, .undef, .undef, .undef⟩ =
      (.badRequest "Title, deadline and person are required", emptyStore) :=
  (create_missing_required_rejected emptyStore
    ⟨.str "", .undef, .str "2024-12-01", .str "Alice",
      .undef, .undef, .undef, .undef, .undef⟩
    (Or.inl (Or.inr rfl))).1

/-- C2: a Create request with non-empty string `title`, `deadline` and
`person` persists exactly one new row, whose id is store-assigned and
unused by any existing row, and returns that full row with status 201;
`description`/`client`/`contact` default to the empty string and
`achievements`/`price` to 0 when omitted, and `finished` is stored as 1
when the input value is truthy and 0 otherwise. The AUTOINCREMENT
invariant `storeWF` is preserved, so the id is never reused later. -/
theorem create_success_persists_row (s : Store) (b : ReqBody)
    (hWF : storeWF s)
    (ht : ∃ t, b.title = .str t ∧ t ≠ "")
    (hd : ∃ d, b.deadline = .str d ∧ d ≠ "")
    (hp : ∃ p, b.person = .str p ∧ p ≠ "") :
    ∃ r : Row,
      createProject s b = (.created r, ⟨s.rows ++ [r], s.nextId + 1⟩) ∧
      r.id ∉ s.rows.map Row.id ∧
      r.title = b.title ∧ r.deadline = b.deadline ∧ r.person = b.person ∧
      (b.description = .undef → r.description = .str "") ∧
      (b.client = .undef → r.client = .str "") ∧
      (b.contact = .undef → r.contact = .str "") ∧
      (b.achievements = .undef → r.achievements = .num 0) ∧
      (b.price = .undef → r.price = .num 0) ∧
      r.finished = (if b.finished.truthy then JVal.num 1 else JVal.num 0) ∧
      storeWF (createProject s b).2 := by
  obtain ⟨t, ht, htne⟩ := ht
  obtain ⟨d, hd, hdne⟩ := hd
  obtain ⟨p, hp, hpne⟩ := hp
  have htt : b.title.truthy = true := by simp [ht, JVal.truthy, htne]
  have hdt : b.deadline.truthy = true := by simp [hd, JVal.truthy, hdne]
  have hpt : b.person.truthy = true := by simp [hp, JVal.truthy, hpne]
  have hcond : (!b.title.truthy || !b.deadline.truthy || !b.person.truthy) = false := by
    simp [htt, hdt, hpt]
  refine ⟨⟨s.nextId, b.title, jsOr b.description (.str ""), b.deadline, b.person,
      jsOr b.client (.str ""), jsOr b.contact (.str ""), jsOr b.achievements (.num 0),
      jsOr b.price (.num 0), jsCond b.finished⟩,
    ?_, ?_, rfl, rfl, rfl, ?_, ?_, ?_, ?_, ?_, rfl, ?_⟩
  · simp [createProject, hcond]
  · intro hmem
    obtain ⟨r, hr, hid⟩ := List.mem_map.mp hmem
    exact absurd hid (Nat.ne_of_gt (hWF r hr)).symm
  · intro h; simp [h, jsOr, JVal.truthy]
  · intro h; simp [h, jsOr, JVal.truthy]
  · intro h; simp [h, jsOr, JVal.truthy]
  · intro h; simp [h, jsOr, JVal.truthy]
  · intro h; simp [h, jsOr, JVal.truthy]
  · intro r hr
    simp only [createProject, hcond] at hr ⊢
    simp only [Bool.false_eq_true, if_false] at hr ⊢
    rcases List.mem_append.mp hr with hr | hr
    · exact Nat.lt_succ_of_lt (hWF r hr)
    · simp only [List.mem_singleton] at hr
      subst hr
      exact Nat.lt_succ_self _

/-- Request body of the spec's concrete scenario: only the required
fields present. -/
def websiteBody : ReqBody :=
  ⟨.str "Website", .undef, .str "2024-12-01", .str "Alice",
    .undef, .undef, .undef, .undef, .undef⟩

/-- Witness for C2: the concrete scenario of the spec — creating
`{title:"Website", deadline:"2024-12-01", person:"Alice"}` on the empty
store persists exactly one row, returned with status 201. -/
theorem create_success_persists_row_witness :
    ∃ r : Row,
      createProject emptyStore websiteBody =
        (.created r, ⟨emptyStore.rows ++ [r], emptyStore.nextId + 1⟩) := by
  obtain ⟨r, hr, -⟩ := create_success_persists_row emptyStore websiteBody
    (by intro r hr; simp [emptyStore] at hr)
    ⟨"Website", rfl, by decide⟩ ⟨"2024-12-01", rfl, by decide⟩ ⟨"Alice", rfl, by decide⟩
  exact ⟨r, hr⟩

/-- Replacement body with `title` absent: it binds SQL NULL into the NOT
NULL `title` column. -/
def noTitleBody : ReqBody :=
  ⟨.undef, .str "", .str "2024-12-01", .str "Alice",
    .str "", .str "", .num 0, .num 0, .num 0⟩

/-- Row persisted by the spec's concrete create scenario. -/
def websiteRow : Row :=
  ⟨1, .str "Website", .str "", .str "2024-12-01", .str "Alice",
    .str "", .str "", .num 0, .num 0, .num 0⟩

/-- C3 counterexample: updating the existing row id 1 with a replacement
record whose `title` is absent does not return a record carrying the
supplied values — the UPDATE binds NULL into the NOT NULL `title`
column, SQLite aborts the statement, the handler answers the 500
database error, and the store (hence a subsequent List) still holds
the original row. -/
theorem update_null_required_cex :
    updateProject ⟨[websiteRow], 2⟩ 1 noTitleBody =
      (.serverError "Database update error", ⟨[websiteRow], 2⟩) ∧
    noTitleBody.title = JVal.undef ∧
    Response.isError (.serverError "Database update error") = true :=
  ⟨by decide, rfl, rfl⟩

/-- C3 (amended): for an id with a matching row and a replacement record
whose required fields `title`, `deadline`, `person` are strings (so no
NOT NULL column is bound NULL) and whose optional fields are strings,
numbers, or absent/null, Update overwrites every field of that row —
strings and numbers verbatim, absent/null optional fields persisted as
SQL NULL, `finished` coerced to 1/0, no validation re-applied — and
returns exactly the updated record; afterwards the only row with that
id is the updated one and every other row is an unchanged original. A
replacement record that would bind NULL into a required column instead
fails with the 500 database error and leaves the store unchanged. -/
theorem update_replaces_fields (s : Store) (pid : Nat) (b : ReqBody)
    (hmem : ∃ r0 ∈ s.rows, r0.id = pid)
    (ht : ∃ t, b.title = .str t)
    (hd : ∃ d, b.deadline = .str d)
    (hp : ∃ q, b.person = .str q)
    (_hde : textBindable b.description) (_hcl : textBindable b.client)
    (_hco : textBindable b.contact)
    (_hac : numBindable b.achievements) (_hpr : numBindable b.price) :
    (∃ r : Row,
      (updateProject s pid b).1 = .okRow r ∧
      r.id = pid ∧ r.title = b.title ∧ r.deadline = b.deadline ∧
      r.person = b.person ∧
      r.description = bindVal b.description ∧ r.client = bindVal b.client ∧
      r.contact = bindVal b.contact ∧ r.achievements = bindVal b.achievements ∧
      r.price = bindVal b.price ∧ r.finished = jsCond b.finished ∧
      r ∈ (updateProject s pid b).2.rows ∧
      (∀ r' ∈ (updateProject s pid b).2.rows, r'.id = pid → r' = r) ∧
      (∀ r' ∈ (updateProject s pid b).2.rows, r'.id ≠ pid → r' ∈ s.rows)) ∧
    (∀ b' : ReqBody,
      bindVal b'.title = .null ∨ bindVal b'.deadline = .null ∨
        bindVal b'.person = .null →
      updateProject s pid b' = (.serverError "Database update error", s)) := by
  obtain ⟨r0, hr0, hid0⟩ := hmem
  have hany : (s.rows.any fun r => r.id == pid) = true :=
    List.any_eq_true.mpr ⟨r0, hr0, by simp [hid0]⟩
  constructor
  · obtain ⟨t, htt⟩ := ht
    obtain ⟨d, hdd⟩ := hd
    obtain ⟨q, hqq⟩ := hp
    have hbt : bindVal b.title = b.title := by rw [htt]; rfl
    have hbd : bindVal b.deadline = b.deadline := by rw [hdd]; rfl
    have hbq : bindVal b.person = b.person := by rw [hqq]; rfl
    have h1 : (bindVal b.title == JVal.null) = false := by rw [htt]; rfl
    have h2 : (bindVal b.deadline == JVal.null) = false := by rw [hdd]; rfl
    have h3 : (bindVal b.person == JVal.null) = false := by rw [hqq]; rfl
    have hcnd : ((s.rows.any fun r => r.id == pid) &&
        (bindVal b.title == .null || bindVal b.deadline == .null ||
          bindVal b.person == .null)) = false := by
      simp [h1, h2, h3]
    have hall : ∀ r' ∈ s.rows.map (fun r => if r.id = pid then replaceFields b r else r),
        r'.id = pid →
        r' = ⟨pid, bindVal b.title, bindVal b.description, bindVal b.deadline,
          bindVal b.person, bindVal b.client, bindVal b.contact,
          bindVal b.achievements, bindVal b.price, jsCond b.finished⟩ := by
      intro r' hr' hid
      obtain ⟨r, hr, rfl⟩ := List.mem_map.mp hr'
      by_cases h : r.id = pid
      · simp [h, replaceFields]
      · simp [h] at hid
    have hmem2 : (⟨pid, bindVal b.title, bindVal b.description, bindVal b.deadline,
        bindVal b.person, bindVal b.client, bindVal b.contact,
        bindVal b.achievements, bindVal b.price, jsCond b.finished⟩ : Row) ∈
        s.rows.map (fun r => if r.id = pid then replaceFields b r else r) := by
      have hg : (if r0.id = pid then replaceFields b r0 else r0) =
          ⟨pid, bindVal b.title, bindVal b.description, bindVal b.deadline,
            bindVal b.person, bindVal b.client, bindVal b.contact,
            bindVal b.achievements, bindVal b.price, jsCond b.finished⟩ := by
        simp [hid0, replaceFields]
      exact hg ▸ List.mem_map_of_mem _ hr0
    have hfind : (s.rows.map (fun r => if r.id = pid then replaceFields b r else r)).find?
        (fun r => r.id == pid) =
        some ⟨pid, bindVal b.title, bindVal b.description, bindVal b.deadline,
          bindVal b.person, bindVal b.client, bindVal b.contact,
          bindVal b.achievements, bindVal b.price, jsCond b.finished⟩ := by
      have hsome : ((s.rows.map (fun r => if r.id = pid then replaceFields b r else r)).find?
          (fun r => r.id == pid)).isSome := by
        rw [List.find?_isSome]
        exact ⟨_, hmem2, by simp⟩
      obtain ⟨r', hr'⟩ := Option.isSome_iff_exists.mp hsome
      have hm1 := List.mem_of_find?_eq_some hr'
      have hm2 := List.find?_some hr'
      rw [hr']
      exact congrArg some (hall r' hm1 (by simpa using hm2))
    have heq : updateProject s pid b =
        (.okRow ⟨pid, bindVal b.title, bindVal b.description, bindVal b.deadline,
            bindVal b.person, bindVal b.client, bindVal b.contact,
            bindVal b.achievements, bindVal b.price, jsCond b.finished⟩,
          ⟨s.rows.map (fun r => if r.id = pid then replaceFields b r else r), s.nextId⟩) := by
      simp only [updateProject]
      rw [hcnd]
      simp only [Bool.false_eq_true, if_false]
      rw [hfind]
    refine ⟨⟨pid, bindVal b.title, bindVal b.description, bindVal b.deadline,
        bindVal b.person, bindVal b.client, bindVal b.contact,
        bindVal b.achievements, bindVal b.price, jsCond b.finished⟩,
      by rw [heq], rfl, hbt, hbd, hbq, rfl, rfl, rfl, rfl, rfl, rfl, ?_, ?_, ?_⟩
    · rw [heq]; exact hmem2
    · rw [heq]; exact hall
    · rw [heq]
      intro r' hr' hne
      obtain ⟨r, hr, rfl⟩ := List.mem_map.mp hr'
      by_cases h : r.id = pid
      · exfalso; apply hne; simp [h, replaceFields]
      · simpa [h] using hr
  · intro b' hnull
    have hcnd : ((s.rows.any fun r => r.id == pid) &&
        (bindVal b'.title == .null || bindVal b'.deadline == .null ||
          bindVal b'.person == .null)) = true := by
      rw [hany]
      rcases hnull with h | h | h <;> simp [h]
    simp only [updateProject]
    rw [hcnd]
    simp

/-- Witness for C3's amended theorem: updating the single row created by
the concrete scenario with `sampleBody` returns a record carrying
exactly the new field values. -/
theorem update_replaces_fields_witness :
    ∃ r : Row,
      (updateProject ⟨[websiteRow], 2⟩ 1 sampleBody).1 = .okRow r ∧
      r.id = 1 ∧ r.title = JVal.str "Website" := by
  obtain ⟨⟨r, h1, h2, h3, -⟩, -⟩ := update_replaces_fields ⟨[websiteRow], 2⟩ 1 sampleBody
    ⟨websiteRow, by simp, rfl⟩
    ⟨"Website", rfl⟩ ⟨"2024-12-01", rfl⟩ ⟨"Alice", rfl⟩
    (Or.inl ⟨"", rfl⟩) (Or.inl ⟨"", rfl⟩) (Or.inl ⟨"", rfl⟩)
    (Or.inl ⟨0, rfl⟩) (Or.inl ⟨0, rfl⟩)
  exact ⟨r, h1, h2, h3⟩

/-- C4 counterexample: updating id 1 on the empty store leaves the store
unchanged but responds with `res.json(undefined)` — a status-200
response with an empty body, not an error response — so the operation
does not fail with a NotFoundError as the claim states. -/
theorem update_missing_id_not_error :
    updateProject emptyStore 1 sampleBody = (.okNone, emptyStore) ∧
    Response.isError .okNone = false :=
  ⟨rfl, rfl⟩

/-- C4 (amended): an Update whose id matches no row leaves the store
unchanged and responds with status 200 and no record body —
distinguishable from a successful update, which returns the updated
record, but not an explicit error. -/
theorem update_missing_id_noop (s : Store) (pid : Nat) (b : ReqBody)
    (h : ∀ r ∈ s.rows, r.id ≠ pid) :
    updateProject s pid b = (.okNone, s) ∧
    Response.isError (updateProject s pid b).1 = false := by
  have hmap : s.rows.map (fun r => if r.id = pid then replaceFields b r else r) = s.rows := by
    rw [List.map_congr_left (fun r hr => if_neg (h r hr)), List.map_id']
  have hfind : (s.rows.map (fun r => if r.id = pid then replaceFields b r else r)).find?
      (fun r => r.id == pid) = none := by
    rw [hmap, List.find?_eq_none]
    intro r hr
    simp [h r hr]
  have hanyf : (s.rows.any fun r => r.id == pid) = false := by
    rw [List.any_eq_false]
    intro r hr
    simp [h r hr]
  have hcndf : ((s.rows.any fun r => r.id == pid) &&
      (bindVal b.title == .null || bindVal b.deadline == .null ||
        bindVal b.person == .null)) = false := by
    rw [hanyf, Bool.false_and]
  have heq : updateProject s pid b = (.okNone, s) := by
    simp only [updateProject]
    rw [hcndf]
    simp only [Bool.false_eq_true, if_false]
    rw [hfind, hmap]
  exact ⟨heq, by rw [heq]; rfl⟩

/-- Witness for C4's amended theorem: updating id 7 on the single-row
store of the concrete scenario is a no-op with an empty 200 body. -/
theorem update_missing_id_noop_witness :
    updateProject ⟨[⟨1, .str "Website", .str "", .str "2024-12-01", .str "Alice",
        .str "", .str "", .num 0, .num 0, .num 0⟩], 2⟩ 7 sampleBody =
      (.okNone, ⟨[⟨1, .str "Website", .str "", .str "2024-12-01", .str "Alice",
        .str "", .str "", .num 0, .num 0, .num 0⟩], 2⟩) :=
  (update_missing_id_noop _ 7 sampleBody (by intro r hr; simp at hr; simp [hr])).1

/-- C5: Delete always reports `{ success: true }`; the rows that survive
are exactly the rows whose id differs from the requested one, in their
original order — so a matching row is removed, every other row is
untouched, and when no row matches the store is exactly as before. -/
theorem delete_removes_only_matching (s : Store) (pid : Nat) :
    (deleteProject s pid).1 = .okSuccess ∧
    (deleteProject s pid).2.rows = s.rows.filter (fun r => r.id != pid) ∧
    (∀ r ∈ (deleteProject s pid).2.rows, r.id ≠ pid) ∧
    (∀ r ∈ s.rows, r.id ≠ pid → r ∈ (deleteProject s pid).2.rows) ∧
    ((∀ r ∈ s.rows, r.id ≠ pid) → (deleteProject s pid).2 = s) := by
  refine ⟨rfl, rfl, ?_, ?_, ?_⟩
  · intro r hr
    have := (List.mem_filter.mp hr).2
    simpa using this
  · intro r hr hne
    exact List.mem_filter.mpr ⟨hr, by simpa using hne⟩
  · intro h
    have : s.rows.filter (fun r => r.id != pid) = s.rows :=
      List.filter_eq_self.mpr fun r hr => by simpa using h r hr
    simp [deleteProject, this]

/-- Witness for C5: deleting id 1 from the single-row store of the
concrete scenario leaves no rows, and deleting id 7 from the empty
store leaves it exactly empty. -/
theorem delete_removes_only_matching_witness :
    (deleteProject ⟨[⟨1, .str "Website", .str "", .str "2024-12-01", .str "Alice",
        .str "", .str "", .num 0, .num 0, .num 0⟩], 2⟩ 1).1 = .okSuccess ∧
    (deleteProject emptyStore 7).2 = emptyStore :=
  ⟨(delete_removes_only_matching _ 1).1,
    (delete_removes_only_matching emptyStore 7).2.2.2.2
      (by intro r hr; simp [emptyStore] at hr)⟩

/-- C6: Delete is idempotent — deleting the same id twice in succession
returns the same response and yields the same store (hence the same
List result) as deleting it once. -/
theorem delete_idempotent (s : Store) (pid : Nat) :
    deleteProject (deleteProject s pid).2 pid = deleteProject s pid := by
  have hff : (s.rows.filter fun r => r.id != pid).filter (fun r => r.id != pid) =
      s.rows.filter fun r => r.id != pid :=
    List.filter_eq_self.mpr fun r hr => (List.mem_filter.mp hr).2
  simp [deleteProject, hff]

/-- C9: `finished ? 1 : 0` can only produce the integers 1 and 0, and every
handler preserves the invariant that each stored row's `finished` is 1
or 0 — so no sequence of operations can ever store another value. -/
theorem finished_flag_invariant (s : Store) (op : Op) (h : finishedOK s) :
    (∀ v : JVal, jsCond v = .num 1 ∨ jsCond v = .num 0) ∧
    finishedOK (applyOp s op) := by
  have hjs : ∀ v : JVal, jsCond v = .num 1 ∨ jsCond v = .num 0 := by
    intro v
    unfold jsCond
    by_cases hv : v.truthy = true <;> simp [hv]
  refine ⟨hjs, ?_⟩
  cases op with
  | create b =>
    by_cases hc : (!b.title.truthy || !b.deadline.truthy || !b.person.truthy) = true
    · simpa [applyOp, createProject, hc] using h
    · intro r hr
      simp only [applyOp, createProject, hc] at hr
      simp only [Bool.false_eq_true, if_false] at hr
      rcases List.mem_append.mp hr with hr | hr
      · exact h r hr
      · simp only [List.mem_singleton] at hr
        subst hr
        exact hjs b.finished
  | update pid b =>
    intro r hr
    simp only [applyOp, updateProject] at hr
    cases hcnd : ((s.rows.any fun q => q.id == pid) &&
        (bindVal b.title == .null || bindVal b.deadline == .null ||
          bindVal b.person == .null)) with
    | true =>
      rw [hcnd] at hr
      simp at hr
      exact h r hr
    | false =>
      rw [hcnd] at hr
      simp only [Bool.false_eq_true, if_false] at hr
      rcases hfind : (s.rows.map (fun r => if r.id = pid then replaceFields b r else r)).find?
          (fun r => r.id == pid) with - | row
      all_goals rw [hfind] at hr; simp only at hr
      all_goals obtain ⟨r0, hr0, rfl⟩ := List.mem_map.mp hr
      all_goals by_cases hid : r0.id = pid
      all_goals simp only [hid, if_true, if_false, replaceFields]
      · exact hjs b.finished
      · simpa [hid] using h r0 hr0
      · exact hjs b.finished
      · simpa [hid] using h r0 hr0
  | delete pid =>
    intro r hr
    exact h r (List.mem_filter.mp hr).1

/-- Witness for C9: the invariant holds of the empty store and survives
the concrete scenario's create request. -/
theorem finished_flag_invariant_witness :
    finishedOK (applyOp emptyStore (.create websiteBody)) :=
  (finished_flag_invariant emptyStore (.create websiteBody)
    (by intro r hr; simp [emptyStore] at hr)).2

/-- JSON body the frontend parses from a response: either a project row or
an `{ error: msg }` object — the handlers' 400/500 bodies, which
`res.json()` parses just as readily since the frontend never checks
`res.ok`. -/
inductive ApiBody where
  | row (r : Row)
  | errObj (msg : String)
deriving DecidableEq, Repr

/-- JavaScript `body.id`: the row's id, or `undefined` (`none`) on an
error object, which has no `id` property. -/
def ApiBody.idOf : ApiBody → Option Nat
  | .row r => some r.id
  | .errObj _ => none

/-- Outcome of a `fetch` round trip as the `.then`/`.catch` chain observes
it: either the promise rejects (network failure, landing in `.catch`)
or a parsed JSON body is delivered, whatever the HTTP status was. -/
inductive FetchResult (α : Type) where
  | netFail
  | response (body : α)

/-- `addProject` in `app.js`: a delivered body is appended to the snapshot;
on rejection only `console.error` runs and the snapshot is untouched. -/
def addProjectFE (snap : List ApiBody) : FetchResult ApiBody → List ApiBody
  | .netFail => snap
  | .response b => snap ++ [b]

/-- `deleteProject` in `app.js`: on any delivered body the entries whose id
strictly equals the requested id are filtered out; on rejection the
snapshot is untouched. The parsed body itself is ignored. -/
def deleteProjectFE (snap : List ApiBody) (pid : Nat) : FetchResult Unit → List ApiBody
  | .netFail => snap
  | .response _ => snap.filter fun p => p.idOf != some pid

/-- `toggleFinished` in `app.js`: on a delivered body every entry whose id
strictly equals the body's id is replaced by the body; on rejection the
snapshot is untouched. -/
def toggleFinishedFE (snap : List ApiBody) : FetchResult ApiBody → List ApiBody
  | .netFail => snap
  | .response b => snap.map fun p => if p.idOf = b.idOf then b else p

/-- C8 counterexample: when Create answers with the 500 error body, the
frontend's `.then` chain still runs and appends the parsed error object
to the snapshot — an error response does mutate local state, contrary
to the claim. -/
theorem mutation_error_response_cex :
    addProjectFE [] (.response (.errObj "Database insertion error")) =
      [ApiBody.errObj "Database insertion error"] ∧
    [ApiBody.errObj "Database insertion error"] ≠ ([] : List ApiBody) :=
  ⟨rfl, by simp⟩

/-- C8 (amended): when the network call itself fails — the fetch promise
rejects and the `.catch` branch runs — each of Add, Remove and
ToggleFinish leaves the local snapshot unchanged: nothing is appended,
removed or replaced. -/
theorem mutation_network_failure_noop (snap : List ApiBody) (pid : Nat) :
    addProjectFE snap .netFail = snap ∧
    deleteProjectFE snap pid .netFail = snap ∧
    toggleFinishedFE snap .netFail = snap :=
  ⟨rfl, rfl, rfl⟩

/-- Drops leading whitespace characters from a character list. -/
def dropWS : List Char → List Char
  | [] => []
  | c :: cs => if c.isWhitespace then dropWS cs else c :: cs

/-- JavaScript `String.prototype.trim`: leading and trailing whitespace
removed. Executable model over the string's character list, because the
library's `String.trim` does not reduce inside the kernel. -/
def jsTrim (s : String) : String :=
  ⟨(dropWS (dropWS s.data).reverse).reverse⟩

/-- One rendered row of the clients table in `ClientsPage`: the (trimmed)
client name, the stored contact value and the number of that client's
projects. -/
structure CEntry where
  name : String
  contact : JVal
  count : Nat
deriving DecidableEq, Repr

/-- Effect of one snapshot record on the `clientMap` being built: a first
occurrence of `key` stores `{ contact: p.contact || '', count: 1 }`; a
later occurrence increments the count and overwrites the contact only
when the stored one is falsy and the new one truthy. The map is kept as
a list in key-insertion order. -/
def upsert : List CEntry → String → JVal → List CEntry
  | [], key, contact => [⟨key, jsOr contact (.str ""), 1⟩]
  | e :: es, key, contact =>
    if e.name = key then
      ⟨e.name, if !e.contact.truthy && contact.truthy then contact else e.contact,
        e.count + 1⟩ :: es
    else
      e :: upsert es key contact

/-- One iteration of the `projects.forEach` loop in `ClientsPage`: the key
is `(p.client || '').trim()` — calling `.trim()` on a truthy non-string
value is a TypeError, modelled as `none` — and a record whose trimmed
key is empty is skipped. -/
def stepClient (m : List CEntry) (p : Row) : Option (List CEntry) :=
  match jsOr p.client (.str "") with
  | .str s => if jsTrim s = "" then some m else some (upsert m (jsTrim s) p.contact)
  | _ => none

/-- The `forEach` loop over the whole snapshot. -/
def clientsFold (m : List CEntry) : List Row → Option (List CEntry)
  | [] => some m
  | p :: ps =>
    match stepClient m p with
    | some m2 => clientsFold m2 ps
    | none => none

/-- The clients view `ClientsPage` computes from the snapshot: one entry
per distinct non-empty trimmed client, in first-occurrence order. -/
def clientsView (ps : List Row) : Option (List CEntry) := clientsFold [] ps

/-- The grouping key a record contributes: `some ((p.client || '').trim())`
when `p.client || ''` is a string, `none` (TypeError) otherwise. -/
def rowKey (p : Row) : Option String :=
  match jsOr p.client (.str "") with
  | .str s => some (jsTrim s)
  | _ => none

/-- Boolean form of `rowKey p = some c`. -/
def rowHasKey (p : Row) (c : String) : Bool := rowKey p == some c

/-- Number of snapshot records grouped under the trimmed client name `c`. -/
def matchCount (ps : List Row) (c : String) : Nat :=
  ps.countP fun p => rowHasKey p c

/-- First truthy (non-empty) contact among `c`'s records in snapshot
order; the empty string when there is none. -/
def firstContact (ps : List Row) (c : String) : JVal :=
  match ps.find? (fun p => rowHasKey p c && p.contact.truthy) with
  | some p => p.contact
  | none => .str ""

/-- Every record's `p.client || ''` is a string, so the view computes
without a TypeError. -/
def clientsTextual (ps : List Row) : Prop :=
  ∀ p ∈ ps, (jsOr p.client (.str "")).isStr = true

/-- The accumulated `clientMap` summarises the processed part `l` of the
snapshot: names are distinct and non-empty, each entry's count and
contact agree with `matchCount`/`firstContact` over `l`, and every
non-empty key occurring in `l` has an entry. -/
def viewOK (l : List Row) (m : List CEntry) : Prop :=
  (m.map CEntry.name).Nodup ∧
  (∀ e ∈ m, e.name ≠ "" ∧ e.count = matchCount l e.name ∧
    e.contact = firstContact l e.name) ∧
  (∀ c : String, c ≠ "" → ((∃ e ∈ m, e.name = c) ↔ 0 < matchCount l c))

theorem viewOK_nil : viewOK [] [] := by
  refine ⟨List.nodup_nil, by simp, ?_⟩
  intro c hc
  simp [matchCount]

theorem matchCount_snoc (l : List Row) (p : Row) (c : String) :
    matchCount (l ++ [p]) c = matchCount l c + (if rowHasKey p c then 1 else 0) := by
  simp [matchCount, List.countP_append, List.countP_cons]

theorem find?_one {α : Type} (f : α → Bool) (a : α) :
    [a].find? f = if f a then some a else none := by
  by_cases h : f a <;> simp [List.find?, h]

theorem firstContact_snoc_of_ne (l : List Row) (p : Row) (c : String)
    (h : rowHasKey p c = false) :
    firstContact (l ++ [p]) c = firstContact l c := by
  unfold firstContact
  rw [List.find?_append, find?_one]
  simp [h]

theorem firstContact_truthy_iff (l : List Row) (c : String) :
    (firstContact l c).truthy = true ↔
      (l.find? (fun p => rowHasKey p c && p.contact.truthy)).isSome := by
  unfold firstContact
  cases h : l.find? (fun p => rowHasKey p c && p.contact.truthy) with
  | none => simp [JVal.truthy]
  | some q =>
    have := List.find?_some h
    simp only [Bool.and_eq_true] at this
    simp [this.2]

/-- Per-entry effect of a later occurrence of key `k` with contact `ct`:
the matching entry's count grows by one and its contact is filled in
when previously falsy; other entries are untouched. -/
def bumpIf (k : String) (ct : JVal) (e : CEntry) : CEntry :=
  if e.name = k then
    ⟨e.name, if !e.contact.truthy && ct.truthy then ct else e.contact, e.count + 1⟩
  else e

theorem bumpIf_name (k : String) (ct : JVal) (e : CEntry) :
    (bumpIf k ct e).name = e.name := by
  unfold bumpIf
  by_cases h : e.name = k <;> simp [h]

theorem upsert_not_mem (m : List CEntry) (k : String) (ct : JVal)
    (h : ∀ e ∈ m, e.name ≠ k) :
    upsert m k ct = m ++ [⟨k, jsOr ct (.str ""), 1⟩] := by
  induction m with
  | nil => rfl
  | cons e es ih =>
    have he : e.name ≠ k := h e (List.mem_cons_self e es)
    simp only [upsert, he, if_false, List.cons_append, List.cons.injEq, true_and]
    exact ih fun e' he' => h e' (List.mem_cons_of_mem e he')

theorem upsert_mem (m : List CEntry) (k : String) (ct : JVal)
    (hnd : (m.map CEntry.name).Nodup) (hmem : ∃ e ∈ m, e.name = k) :
    upsert m k ct = m.map (bumpIf k ct) := by
  induction m with
  | nil => simp at hmem
  | cons e es ih =>
    simp only [List.map_cons, List.nodup_cons] at hnd
    by_cases he : e.name = k
    · have hes : es.map (bumpIf k ct) = es := by
        have hall : ∀ e' ∈ es, bumpIf k ct e' = e' := by
          intro e' he'
          have hne : e'.name ≠ k := by
            intro hk
            exact hnd.1 (by rw [he, ← hk]; exact List.mem_map_of_mem _ he')
          simp [bumpIf, hne]
        rw [List.map_congr_left hall, List.map_id']
      simp only [upsert, he, if_true, List.map_cons, hes, bumpIf]
    · obtain ⟨e0, he0, hk0⟩ := hmem
      rcases List.mem_cons.mp he0 with rfl | he0
      · exact absurd hk0 he
      · simp only [upsert, he, if_false, List.map_cons, List.cons.injEq]
        exact ⟨by simp [bumpIf, he], ih hnd.2 ⟨e0, he0, hk0⟩⟩

theorem stepClient_viewOK (l : List Row) (m : List CEntry) (p : Row)
    (hOK : viewOK l m) (hstr : (jsOr p.client (.str "")).isStr = true) :
    ∃ m2, stepClient m p = some m2 ∧ viewOK (l ++ [p]) m2 := by
  obtain ⟨hnd, hent, hkey⟩ := hOK
  cases hc : jsOr p.client (.str "") with
  | undef => rw [hc] at hstr; simp [JVal.isStr] at hstr
  | null => rw [hc] at hstr; simp [JVal.isStr] at hstr
  | num n => rw [hc] at hstr; simp [JVal.isStr] at hstr
  | bool b => rw [hc] at hstr; simp [JVal.isStr] at hstr
  | str s =>
    have hrk : rowKey p = some (jsTrim s) := by simp [rowKey, hc]
    have hpk : ∀ c : String, rowHasKey p c = true ↔ jsTrim s = c := by
      intro c
      simp [rowHasKey, hrk]
    have hpkf : ∀ c : String, jsTrim s ≠ c → rowHasKey p c = false := by
      intro c hcne
      rw [Bool.eq_false_iff]
      intro h
      exact hcne ((hpk c).mp h)
    by_cases hk : jsTrim s = ""
    · refine ⟨m, by simp [stepClient, hc, hk], hnd, ?_, ?_⟩
      · intro e he
        obtain ⟨hne, hcount, hcontact⟩ := hent e he
        have hf : rowHasKey p e.name = false :=
          hpkf e.name (by rw [hk]; exact fun h => hne h.symm)
        refine ⟨hne, ?_, ?_⟩
        · rw [matchCount_snoc, hf]; simp [hcount]
        · rw [firstContact_snoc_of_ne l p e.name hf]; exact hcontact
      · intro c hc0
        have hf : rowHasKey p c = false :=
          hpkf c (by rw [hk]; exact fun h => hc0 h.symm)
        rw [matchCount_snoc, hf]
        simpa using hkey c hc0
    · by_cases hm : ∃ e ∈ m, e.name = jsTrim s
      · have hup : upsert m (jsTrim s) p.contact = m.map (bumpIf (jsTrim s) p.contact) :=
          upsert_mem m (jsTrim s) p.contact hnd hm
        refine ⟨m.map (bumpIf (jsTrim s) p.contact),
          by simp [stepClient, hc, hk, hup], ?_, ?_, ?_⟩
        · have hnames : (m.map (bumpIf (jsTrim s) p.contact)).map CEntry.name =
              m.map CEntry.name := by
            rw [List.map_map]
            exact List.map_congr_left fun e he => bumpIf_name _ _ e
          rw [hnames]; exact hnd
        · intro e' he'
          obtain ⟨e, he, rfl⟩ := List.mem_map.mp he'
          obtain ⟨hne, hcount, hcontact⟩ := hent e he
          by_cases hek : e.name = jsTrim s
          · have hbump : bumpIf (jsTrim s) p.contact e =
                ⟨e.name, if !e.contact.truthy && p.contact.truthy then p.contact
                  else e.contact, e.count + 1⟩ := by
              simp [bumpIf, hek]
            rw [hbump]
            dsimp only
            have hkt : rowHasKey p e.name = true := (hpk e.name).mpr hek.symm
            refine ⟨hne, ?_, ?_⟩
            · rw [matchCount_snoc, hkt]
              simp [hcount]
            · by_cases hT : e.contact.truthy = true
              · have hfs : (l.find? (fun q => rowHasKey q e.name && q.contact.truthy)).isSome := by
                  rw [← firstContact_truthy_iff, ← hcontact]
                  exact hT
                obtain ⟨q, hq⟩ := Option.isSome_iff_exists.mp hfs
                have hsame : firstContact (l ++ [p]) e.name = firstContact l e.name := by
                  unfold firstContact
                  rw [List.find?_append, hq]
                  simp [Option.or]
                rw [hsame, hT]
                simp [hcontact]
              · have hT' : e.contact.truthy = false := by
                  cases h2 : e.contact.truthy
                  · rfl
                  · exact absurd h2 hT
                have hfn : l.find? (fun q => rowHasKey q e.name && q.contact.truthy) = none := by
                  cases h2 : l.find? (fun q => rowHasKey q e.name && q.contact.truthy) with
                  | none => rfl
                  | some q =>
                    exfalso
                    apply hT
                    rw [hcontact, firstContact_truthy_iff, h2]
                    rfl
                have hfc0 : firstContact l e.name = .str "" := by
                  unfold firstContact; rw [hfn]
                have happ : firstContact (l ++ [p]) e.name =
                    if p.contact.truthy then p.contact else .str "" := by
                  unfold firstContact
                  rw [List.find?_append, hfn, find?_one]
                  simp only [hkt, Bool.true_and, Option.none_or]
                  by_cases h3 : p.contact.truthy = true <;> simp [h3]
                rw [happ, hT']
                by_cases h3 : p.contact.truthy = true <;>
                  simp [h3, hcontact, hfc0]
          · have hbump : bumpIf (jsTrim s) p.contact e = e := by simp [bumpIf, hek]
            rw [hbump]
            have hf : rowHasKey p e.name = false := hpkf e.name fun h => hek h.symm
            refine ⟨hne, ?_, ?_⟩
            · rw [matchCount_snoc, hf]; simp [hcount]
            · rw [firstContact_snoc_of_ne l p e.name hf]; exact hcontact
        · intro c hc1
          constructor
          · intro hex
            obtain ⟨e', he', hn'⟩ := hex
            obtain ⟨e, he, rfl⟩ := List.mem_map.mp he'
            rw [bumpIf_name] at hn'
            have hold := (hkey c hc1).mp ⟨e, he, hn'⟩
            rw [matchCount_snoc]
            exact Nat.lt_of_lt_of_le hold (Nat.le_add_right _ _)
          · intro hpos
            by_cases hck : c = jsTrim s
            · obtain ⟨e0, he0, hk0⟩ := hm
              exact ⟨bumpIf (jsTrim s) p.contact e0, List.mem_map_of_mem _ he0,
                by rw [bumpIf_name, hk0, hck]⟩
            · have hf : rowHasKey p c = false := hpkf c fun h => hck h.symm
              rw [matchCount_snoc, hf] at hpos
              simp only [Bool.false_eq_true, if_false, Nat.add_zero] at hpos
              obtain ⟨e, he, hn⟩ := (hkey c hc1).mpr hpos
              exact ⟨bumpIf (jsTrim s) p.contact e, List.mem_map_of_mem _ he,
                by rw [bumpIf_name]; exact hn⟩
      · have hnotin : ∀ e ∈ m, e.name ≠ jsTrim s := fun e he hk' => hm ⟨e, he, hk'⟩
        have hup : upsert m (jsTrim s) p.contact =
            m ++ [⟨jsTrim s, jsOr p.contact (.str ""), 1⟩] :=
          upsert_not_mem m (jsTrim s) p.contact hnotin
        have hmc0 : matchCount l (jsTrim s) = 0 := by
          by_contra h0
          exact hm ((hkey (jsTrim s) hk).mpr (Nat.pos_of_ne_zero h0))
        have hfn : l.find? (fun q => rowHasKey q (jsTrim s) && q.contact.truthy) = none := by
          rw [List.find?_eq_none]
          intro q hq
          have hz := List.countP_eq_zero.mp hmc0 q hq
          simp only [Bool.and_eq_true, not_and]
          intro h1
          exact absurd h1 hz
        have hkt : rowHasKey p (jsTrim s) = true := (hpk _).mpr rfl
        have hfcnew : firstContact (l ++ [p]) (jsTrim s) = jsOr p.contact (.str "") := by
          unfold firstContact
          rw [List.find?_append, hfn, find?_one]
          simp only [hkt, Bool.true_and, Option.none_or]
          by_cases h3 : p.contact.truthy = true <;> simp [h3, jsOr]
        refine ⟨m ++ [⟨jsTrim s, jsOr p.contact (.str ""), 1⟩],
          by simp [stepClient, hc, hk, hup], ?_, ?_, ?_⟩
        · rw [List.map_append, List.nodup_append]
          refine ⟨hnd, by simp, ?_⟩
          intro a ha
          obtain ⟨e, he, rfl⟩ := List.mem_map.mp ha
          simp only [List.map_cons, List.map_nil, List.mem_singleton]
          exact hnotin e he
        · intro e' he'
          rcases List.mem_append.mp he' with he' | he'
          · obtain ⟨hne, hcount, hcontact⟩ := hent e' he'
            have hf : rowHasKey p e'.name = false :=
              hpkf e'.name fun h => hnotin e' he' h.symm
            refine ⟨hne, ?_, ?_⟩
            · rw [matchCount_snoc, hf]; simp [hcount]
            · rw [firstContact_snoc_of_ne l p e'.name hf]; exact hcontact
          · simp only [List.mem_singleton] at he'
            subst he'
            dsimp only
            refine ⟨hk, ?_, hfcnew.symm⟩
            rw [matchCount_snoc, hkt]
            simp [hmc0]
        · intro c hc1
          rw [matchCount_snoc]
          by_cases hck : c = jsTrim s
          · subst hck
            rw [hkt]
            constructor
            · intro h2
              simp
            · intro h2
              exact ⟨⟨jsTrim s, jsOr p.contact (.str ""), 1⟩, by simp, rfl⟩
          · have hf : rowHasKey p c = false := hpkf c fun h => hck h.symm
            rw [hf]
            simp only [Bool.false_eq_true, if_false, Nat.add_zero]
            constructor
            · intro h2
              obtain ⟨e, he, hn⟩ := h2
              rcases List.mem_append.mp he with he | he
              · exact (hkey c hc1).mp ⟨e, he, hn⟩
              · simp only [List.mem_singleton] at he
                subst he
                dsimp only at hn
                exact absurd hn.symm hck
            · intro h2
              obtain ⟨e, he, hn⟩ := (hkey c hc1).mpr h2
              exact ⟨e, List.mem_append_left _ he, hn⟩

theorem clientsFold_viewOK (ps : List Row) : ∀ (l : List Row) (m : List CEntry),
    viewOK l m → clientsTextual ps →
    ∃ es, clientsFold m ps = some es ∧ viewOK (l ++ ps) es := by
  induction ps with
  | nil =>
    intro l m h _
    exact ⟨m, rfl, by simpa using h⟩
  | cons p ps ih =>
    intro l m h htext
    obtain ⟨m2, hstep, hOK2⟩ := stepClient_viewOK l m p h (htext p (List.mem_cons_self p ps))
    obtain ⟨es, hfold, hOK3⟩ := ih (l ++ [p]) m2 hOK2
      fun q hq => htext q (List.mem_cons_of_mem p hq)
    refine ⟨es, ?_, ?_⟩
    · simp only [clientsFold, hstep]
      exact hfold
    · rw [List.append_assoc] at hOK3
      simpa using hOK3

/-- First record of the claim's concrete example: client Acme, contact
present. -/
def acmeRow1 : Row :=
  ⟨1, .str "t1", .str "", .str "d1", .str "p1", .str "Acme", .str "a@x",
    .num 0, .num 0, .num 0⟩

/-- Second record of the claim's concrete example: client Acme, contact
empty. -/
def acmeRow2 : Row :=
  ⟨2, .str "t2", .str "", .str "d2", .str "p2", .str "Acme", .str "",
    .num 0, .num 0, .num 0⟩

/-- Third record of the claim's concrete example: client Beta. -/
def betaRow : Row :=
  ⟨3, .str "t3", .str "", .str "d3", .str "p3", .str "Beta", .str "b@x",
    .num 0, .num 0, .num 0⟩

/-- Record whose client is the non-empty, whitespace-only string. -/
def wsClientRow : Row :=
  ⟨1, .str "t", .str "", .str "d", .str "p", .str " ", .str "x",
    .num 0, .num 0, .num 0⟩

/-- C7 counterexample: on the snapshot holding one record whose client is
the non-empty value `" "` (with a non-empty contact), the derived view
is empty — there is no entry for that distinct non-empty client value,
because grouping uses the trimmed client, refuting the claim as
stated. -/
theorem clientsView_whitespace_cex :
    clientsView [wsClientRow] = some [] ∧
    wsClientRow.client = JVal.str " " ∧
    JVal.truthy (JVal.str " ") = true := by
  refine ⟨by decide, rfl, by decide⟩

/-- C7 (amended): for every snapshot of project records whose client
values are strings, the derived clients view has one entry per distinct
non-empty trimmed client value, whose count is the number of snapshot
records with that trimmed client and whose contact is the first truthy
(non-empty) contact among those records in snapshot order — the empty
string if none; in particular, on the snapshot
`[{client:"Acme", contact:"a@x"}, {client:"Acme", contact:""},
{client:"Beta", contact:"b@x"}]` the view yields Acme with count 2 and
contact "a@x" and Beta with count 1 and contact "b@x". -/
theorem clientsView_grouped_by_trimmed_client (ps : List Row)
    (htext : clientsTextual ps) :
    (∃ es, clientsView ps = some es ∧
      (es.map CEntry.name).Nodup ∧
      (∀ e ∈ es, e.name ≠ "" ∧ e.count = matchCount ps e.name ∧
        e.contact = firstContact ps e.name) ∧
      (∀ c : String, c ≠ "" → ((∃ e ∈ es, e.name = c) ↔ 0 < matchCount ps c))) ∧
    clientsView [acmeRow1, acmeRow2, betaRow] =
      some [⟨"Acme", .str "a@x", 2⟩, ⟨"Beta", .str "b@x", 1⟩] := by
  constructor
  · obtain ⟨es, hfold, hOK⟩ := clientsFold_viewOK ps [] [] viewOK_nil htext
    rw [List.nil_append] at hOK
    exact ⟨es, hfold, hOK⟩
  · decide

/-- Witness for C7's amended theorem: its hypotheses hold of the concrete
three-record example snapshot, on which the view computes as stated. -/
theorem clientsView_grouped_by_trimmed_client_witness :
    clientsView [acmeRow1, acmeRow2, betaRow] =
      some [⟨"Acme", .str "a@x", 2⟩, ⟨"Beta", .str "b@x", 1⟩] :=
  (clientsView_grouped_by_trimmed_client [acmeRow1, acmeRow2, betaRow]
    (by unfold clientsTextual; decide)).2

/-- Record whose client carries leading whitespace. -/
def spacedRow1 : Row :=
  ⟨1, .str "t", .str "", .str "d", .str "p", .str " Acme", .str "a@x",
    .num 0, .num 0, .num 0⟩

/-- Record whose client carries trailing whitespace. -/
def spacedRow2 : Row :=
  ⟨2, .str "t", .str "", .str "d", .str "p", .str "Acme ", .str "",
    .num 0, .num 0, .num 0⟩

/-- C10: the view's grouping key is the client value with surrounding
whitespace trimmed — a record whose client trims to the empty string is
skipped outright (the map is untouched), and two records whose client
values differ only in surrounding whitespace are counted under a single
entry named by the common trimmed value. -/
theorem clientsView_trims_client_keys (m : List CEntry) (q : Row) (t : String)
    (hq : q.client = .str t) (ht : jsTrim t = "")
    (p1 p2 : Row) (s1 s2 : String)
    (h1 : p1.client = .str s1) (h2 : p2.client = .str s2)
    (heq : jsTrim s1 = jsTrim s2) (hne : jsTrim s1 ≠ "") :
    stepClient m q = some m ∧
    ∃ e, clientsView [p1, p2] = some [e] ∧ e.name = jsTrim s1 ∧ e.count = 2 := by
  have hjt0 : jsTrim "" = "" := by decide
  constructor
  · by_cases h0 : t = ""
    · subst h0
      simp [stepClient, hq, jsOr, JVal.truthy, hjt0]
    · simp [stepClient, hq, jsOr, JVal.truthy, h0, ht]
  · have hs1 : s1 ≠ "" := by
      intro h0
      rw [h0, hjt0] at hne
      exact hne rfl
    have hs2 : s2 ≠ "" := by
      intro h0
      rw [heq, h0, hjt0] at hne
      exact hne rfl
    have hne2 : jsTrim s2 ≠ "" := by rw [← heq]; exact hne
    have hstep1 : stepClient [] p1 = some [⟨jsTrim s1, jsOr p1.contact (.str ""), 1⟩] := by
      simp [stepClient, h1, jsOr, JVal.truthy, hs1, hne, upsert]
    have hstep2 : stepClient [⟨jsTrim s1, jsOr p1.contact (.str ""), 1⟩] p2 =
        some [⟨jsTrim s1,
          if !(jsOr p1.contact (.str "")).truthy && p2.contact.truthy then p2.contact
            else jsOr p1.contact (.str ""), 2⟩] := by
      simp [stepClient, h2, jsOr, JVal.truthy, hs2, hne2, upsert, heq]
    refine ⟨⟨jsTrim s1,
      if !(jsOr p1.contact (.str "")).truthy && p2.contact.truthy then p2.contact
        else jsOr p1.contact (.str ""), 2⟩, ?_, rfl, rfl⟩
    simp only [clientsView, clientsFold, hstep1, hstep2]

/-- Witness for C10: a whitespace-only client `" "` is skipped, and the
snapshot `[{client:" Acme"}, {client:"Acme "}]` yields a single entry
of count 2 named by the trimmed value. -/
theorem clientsView_trims_client_keys_witness :
    stepClient [] wsClientRow = some [] ∧
    ∃ e, clientsView [spacedRow1, spacedRow2] = some [e] ∧
      e.name = jsTrim " Acme" ∧ e.count = 2 :=
  clientsView_trims_client_keys [] wsClientRow " " rfl (by decide)
    spacedRow1 spacedRow2 " Acme" "Acme " rfl rfl (by decide) (by decide)
